import Mathlib

/-!
Verification of the caiso_ops repository core: the cache-backed data
fetcher (`src/caiso_ops/data.py`), the daily longest-negative-run price
statistic (`src/caiso_ops/prices.py`), and the top/bottom-N spread
statistic (`src/caiso_ops/tb_spreads.py`).

Numeric observations handled by the spread statistic are modelled as
integers; pandas/NumPy float values that can be NaN or infinite (price
series, revenue/capacity ratios) are modelled by the `PFloat` type below.
-/

namespace CaisoOps

/-! ## Top/bottom-N spread (`src/caiso_ops/tb_spreads.py`) -/

/-- Embedding of `TopBottomSpread.__init__`: the object stores `tb` (the
number of extreme hours per side) and `resolution` (minutes between
observations). -/
structure TopBottomSpread where
  tb : Nat
  resolution : Nat
deriving DecidableEq

/-- Embedding of `self.obs_per_hour = 60 // self.resolution` (Python floor
division on nonnegative ints is Nat division). -/
def TopBottomSpread.obsPerHour (t : TopBottomSpread) : Nat :=
  60 / t.resolution

/-- Embedding of `self.n = self.tb * self.obs_per_hour`. -/
def TopBottomSpread.nExtremes (t : TopBottomSpread) : Nat :=
  t.tb * t.obsPerHour

/-- Python slice `a[-n:]` for a nonnegative int `n`: for `n = 0` the start
index `-0` is literally `0`, so the whole list is returned; otherwise the
start index `len - n` is clamped below at `0` (Nat subtraction clamps
exactly like Python slicing does). -/
def sliceFromNeg (l : List Int) (n : Nat) : List Int :=
  if n = 0 then l else l.drop (l.length - n)

/-- Python slice `a[:n]` for a nonnegative int `n`: the first `n` elements,
or the whole list when `n` exceeds the length. -/
def sliceTo (l : List Int) (n : Nat) : List Int :=
  l.take n

/-- Embedding of `TopBottomSpread.__call__`: sort ascending (`np.sort`;
the sorting algorithm is immaterial, only the sorted output matters), then
`arranged[-self.n:].sum() - arranged[:self.n].sum()`. -/
def TopBottomSpread.call (t : TopBottomSpread) (obj : List Int) : Int :=
  let arranged := obj.insertionSort (· ≤ ·)
  (sliceFromNeg arranged t.nExtremes).sum - (sliceTo arranged t.nExtremes).sum

/-- Specification-side definition (from the claim text, for comparison with
the code embedding `TopBottomSpread.call`): the sum of the top `n` values of
the ascending-sorted window minus the sum of its bottom `n` values. -/
def specTopBottomSpread (n : Nat) (w : List Int) : Int :=
  let sorted := w.insertionSort (· ≤ ·)
  (sorted.reverse.take n).sum - (sorted.take n).sum

/-! ## Float values (model of pandas/NumPy float64 entries)

Series entries and revenue/capacity values in the source are NumPy
doubles, which can be finite, infinite, or NaN.  We model them exactly on
the cases the code exercises: finite values are rationals, and the three
special values are explicit constructors.  Signed zeros are collapsed to
the single rational `0`. -/

/-- Model of a pandas/NumPy float64 cell value. -/
inductive PFloat where
  | finite (q : ℚ)
  | inf
  | negInf
  | nan
deriving DecidableEq

/-- Model of the NumPy comparison `v < 0` (used by `series < 0` in
`negative_duration`): NaN compares false against everything, `-inf < 0` is
true, `+inf < 0` is false. -/
def PFloat.isNeg : PFloat → Bool
  | .finite q => decide (q < 0)
  | .inf => false
  | .negInf => true
  | .nan => false

/-- Model of IEEE-754 double division as performed by
`DataFrame.div` / NumPy: NaN propagates, a nonzero finite value divided by
zero gives a signed infinity, `0 / 0` gives NaN, finite over infinite
gives zero (signed zeros collapsed), infinite over infinite gives NaN. -/
def PFloat.div : PFloat → PFloat → PFloat
  | .nan, _ => .nan
  | _, .nan => .nan
  | .finite a, .finite b =>
      if b = 0 then
        if a = 0 then .nan else if 0 < a then .inf else .negInf
      else .finite (a / b)
  | .finite _, .inf => .finite 0
  | .finite _, .negInf => .finite 0
  | .inf, .finite b => if b < 0 then .negInf else .inf
  | .negInf, .finite b => if b < 0 then .inf else .negInf
  | .inf, .inf => .nan
  | .inf, .negInf => .nan
  | .negInf, .inf => .nan
  | .negInf, .negInf => .nan

/-! ## Daily longest negative run (`src/caiso_ops/prices.py`)

`negative_duration` computes `(series < 0).astype(int)` and then applies
`_daily_neg_duration` to each calendar-day bucket of the resampled series.
We model one day bucket as a list of `PFloat` samples; `_daily_neg_duration`
is embedded below exactly as its NumPy edge-scan implementation. -/

/-- Embedding of `np.diff`: successive differences of a list. -/
def diffList : List Int → List Int
  | x :: y :: rest => (y - x) :: diffList (y :: rest)
  | _ => []

/-- Embedding of `np.flatnonzero(pred(arr))`: the indices (starting at the
accumulator `i`) of the elements satisfying `p`, in order. -/
def idxWhere (p : Int → Bool) : List Int → Nat → List Nat
  | [], _ => []
  | x :: l, i => if p x then i :: idxWhere p l (i + 1) else idxWhere p l (i + 1)

/-- Embedding of `_daily_neg_duration` from `src/caiso_ops/prices.py`:
pad the 0/1 array with sentinel zeros, diff, locate rising edges
(`diffed == 1`) and falling edges (`diffed == -1`), pair them positionally
(`ends - starts`, a NumPy elementwise subtraction), and take the maximum
with initial value 0. -/
def dailyNegDuration (arr : List Int) : Int :=
  let padded : List Int := 0 :: (arr ++ [0])
  let diffed := diffList padded
  let starts := idxWhere (fun d => d == 1) diffed 0
  let ends := idxWhere (fun d => d == -1) diffed 0
  (List.zipWith (fun (e s : Nat) => (e : Int) - (s : Int)) ends starts).foldl max 0

/-- Embedding of the mask construction `(series < 0).astype(int)` on one
day bucket: NaN is not `< 0`, so it maps to 0. -/
def maskOf (samples : List PFloat) : List Int :=
  samples.map (fun v => if v.isNeg then 1 else 0)

/-- The per-day value produced by `negative_duration`: the resampler feeds
each calendar-day bucket of the 0/1 mask to `_daily_neg_duration`. -/
def negativeDurationDay (samples : List PFloat) : Int :=
  dailyNegDuration (maskOf samples)

/-- Specification-side definition (from the claim text): the lengths of the
maximal runs of consecutive `true` entries, scanned left to right; the
accumulator carries the length of the currently open run. -/
def runLengthsAux : List Bool → Nat → List Nat
  | [], 0 => []
  | [], c + 1 => [c + 1]
  | true :: l, c => runLengthsAux l (c + 1)
  | false :: l, 0 => runLengthsAux l 0
  | false :: l, c + 1 => (c + 1) :: runLengthsAux l 0

/-- Specification-side definition: the maximal-run lengths of a boolean
list. -/
def runLengths (l : List Bool) : List Nat :=
  runLengthsAux l 0

/-- Specification-side definition (from the claim text): the maximum length
of a maximal run of consecutive `true` entries, 0 when there is none. -/
def longestRun (l : List Bool) : Nat :=
  (runLengths l).foldl max 0

/-- The 0/1 encoding performed by `.astype(int)` on one boolean. -/
def bitOf (b : Bool) : Int :=
  if b then 1 else 0

/-- The list `ends - starts` of run lengths computed inside
`_daily_neg_duration` (the value whose NumPy `.max(initial=0)` the
function returns). -/
def edgePairs (arr : List Int) : List Int :=
  let diffed := diffList (0 :: (arr ++ [0]))
  List.zipWith (fun (e s : Nat) => (e : Int) - (s : Int))
    (idxWhere (fun d => d == -1) diffed 0)
    (idxWhere (fun d => d == 1) diffed 0)

/-- Apply a function to the head of a list, if any (proof helper for the
open-run case of the edge scan). -/
def mapHead {α : Type} (f : α → α) : List α → List α
  | [] => []
  | x :: l => f x :: l

/-! ## Revenue-to-capacity index construction (`fetch_index` in
`src/caiso_ops/data.py`)

`fetch_index` joins the per-timestamp revenue table with the daily
capacity table on `out.index.floor("D")` and then divides each service
column by the capacity column (`ix[service_columns].div(ix[denom],
axis=0)`).  We model timestamps as minutes since an epoch and embed the
per-row computation: a left-join miss yields a NaN capacity cell, and the
division is `PFloat.div`. -/

/-- Embedding of `out.index.floor("D")` on a timestamp in minutes: round
down to the start of the containing day (1440 minutes per day). -/
def floorDay (t : Nat) : Nat :=
  (t / 1440) * 1440

/-- Embedding of the left join of a revenue row against
`cap.set_index("date")[denom]`: look the floored timestamp up in the
capacity table (its `date` index is unique, so first match is the match);
a join miss produces a NaN cell, exactly as a pandas left join does. -/
def capLookup (cap : List (Nat × PFloat)) (ts : Nat) : PFloat :=
  match cap.lookup (floorDay ts) with
  | some c => c
  | none => PFloat.nan

/-- Embedding of the normalized cell produced by `fetch_index` for a
revenue value `rev` at timestamp `ts`: the joined capacity cell divides the
revenue cell (`.div`, elementwise IEEE division). -/
def fetchIndexNormalize (cap : List (Nat × PFloat)) (ts : Nat) (rev : PFloat) :
    PFloat :=
  rev.div (capLookup cap ts)

/-! ## Cache-backed fetcher (`DataFetcher` in `src/caiso_ops/data.py`)

The fetcher is modelled as a state machine over an abstract table type
`τ` and query-parameter type `π`.  The cache pool state records the
`target` artifact (`None` when the file does not exist) and the `source`
directory (`none` when the path does not exist, `some files` for a
directory holding the listed readable files; the source-as-single-file
layout is not exercised by any dataset in the repository).  Reading a file
is parquet/CSV deserialization, modelled as the identity, so a source
directory is just a list of tables; `pd.concat` over those tables is the
`concatFn` field.  The third component of each result counts invocations
of the bound `sql_interface`.  Python exceptions are modelled with
`Except`; the side effects performed before an exception is raised are
kept in the returned state, exactly as on-disk effects persist when a
Python exception propagates. -/

/-- Error taxonomy of the fetch/normalize layer.  `configurationError`
models the `RuntimeError` raised by `DataFetcher.read` when no
`sql_interface` is bound; `schemaError` models the pandas `KeyError`
raised when a normalizer accesses or drops a column that is absent, and
carries the missing column name. -/
inductive CaisoError where
  | configurationError (msg : String)
  | schemaError (col : String)
deriving DecidableEq

/-- Model of a `DataFetcher` instance: the optionally bound
`sql_interface`, the dataset's `process` override, and the model of
`pd.concat` for the table type in use. -/
structure DataFetcher (τ π : Type) where
  sqlInterface : Option (π → τ)
  processFn : τ → Except CaisoError τ
  concatFn : List τ → τ

/-- Model of the cache pool contents relevant to one dataset: the
`target` artifact and the `source` directory. -/
structure CacheState (τ : Type) where
  target : Option τ
  source : Option (List τ)
deriving DecidableEq

/-- Embedding of the else-branch of `DataFetcher.read`: with no
`sql_interface` raise `RuntimeError` (the message in the source
interpolates the class name); otherwise create the source directory,
call the interface, persist the result as the directory's single
`data.parquet` file, and return `read_local_data()` on the now
one-file directory. -/
def DataFetcher.fetchBranch {τ π : Type} (fet : DataFetcher τ π)
    (s : CacheState τ) (p : π) :
    Except CaisoError τ × CacheState τ × Nat :=
  match fet.sqlInterface with
  | none =>
      (.error (.configurationError
        "objects have no SQL interface; pull the data manually"), s, 0)
  | some sql =>
      let df := sql p
      let s' : CacheState τ := { s with source := some [df] }
      (.ok (fet.concatFn [df]), s', 1)

/-- Embedding of `DataFetcher.read`: a source directory with at least one
file is read locally (`vcat` over its files); a missing or empty source
directory falls through to the fetch branch. -/
def DataFetcher.read {τ π : Type} (fet : DataFetcher τ π)
    (s : CacheState τ) (p : π) :
    Except CaisoError τ × CacheState τ × Nat :=
  match s.source with
  | some files =>
      if files.isEmpty then fet.fetchBranch s p
      else (.ok (fet.concatFn files), s, 0)
  | none => fet.fetchBranch s p

/-- Embedding of `DataFetcher.load`: an existing target is deserialized
and returned unchanged; otherwise `read`, then `process`, then persist
the processed table to `target`.  A raised exception propagates and the
target is not written. -/
def DataFetcher.load {τ π : Type} (fet : DataFetcher τ π)
    (s : CacheState τ) (p : π) :
    Except CaisoError τ × CacheState τ × Nat :=
  match s.target with
  | some t => (.ok t, s, 0)
  | none =>
      match fet.read s p with
      | (.error e, s', k) => (.error e, s', k)
      | (.ok df, s', k) =>
          match fet.processFn df with
          | .error e => (.error e, s', k)
          | .ok df' => (.ok df', { s' with target := some df' }, k)

/-! ## Column-labelled frames and the ancillary-services normalizer

`AncillaryServicePriceFetcher.process` manipulates a DataFrame by column
labels.  We model such a frame as a column-name list plus rows of integer
cells (timestamps are minutes; the cell type is immaterial to the schema
behaviour the claims are about). -/

/-- Model of a pandas DataFrame with named columns; every row is aligned
with `cols`. -/
structure Frame where
  cols : List String
  rows : List (List Int)
deriving DecidableEq

/-- Position of a column label, as pandas column lookup does (labels are
unique in the datasets at hand; first match). -/
def Frame.colIdx (f : Frame) (c : String) : Option Nat :=
  f.cols.findIdx? (fun d => d == c)

/-- Embedding of `df[c] = df[c].map(transform)`-style column rewriting
(`df[date] = df[date].dt.tz_convert(...).dt.tz_localize(None)`): accessing
a missing column raises `KeyError(c)`, modelled as a `schemaError`. -/
def Frame.mapCol (f : Frame) (c : String) (transform : Int → Int) :
    Except CaisoError Frame :=
  match f.colIdx c with
  | none => .error (.schemaError c)
  | some i =>
      .ok { f with rows := f.rows.map (fun r => r.set i (transform (r.getD i 0))) }

/-- Embedding of `df.drop(columns=cs)`: a label not present raises
`KeyError`, naming a missing label; otherwise the labelled columns and
their cells are removed. -/
def Frame.dropColumns (f : Frame) (cs : List String) : Except CaisoError Frame :=
  match cs.find? (fun c => !(f.cols.contains c)) with
  | some c => .error (.schemaError c)
  | none =>
      .ok { cols := f.cols.filter (fun c => !(cs.contains c)),
            rows := f.rows.map (fun r =>
              (f.cols.zip r).filterMap
                (fun cv => if cs.contains cv.1 then none else some cv.2)) }

/-- Embedding of `df.rename(columns={a: b})`: relabel matching column
names, leaving everything else alone (pandas rename ignores absent
labels). -/
def Frame.renameCol (f : Frame) (a b : String) : Frame :=
  { f with cols := f.cols.map (fun c => if c == a then b else c) }

/-- Embedding of `df.sort_values(c)`: sort rows ascending by the value in
column `c` (the sorting algorithm is immaterial, only the sorted output
matters); a missing label raises `KeyError(c)`. -/
def Frame.sortValues (f : Frame) (c : String) : Except CaisoError Frame :=
  match f.colIdx c with
  | none => .error (.schemaError c)
  | some i =>
      .ok { f with rows := f.rows.insertionSort (fun r₁ r₂ => r₁.getD i 0 ≤ r₂.getD i 0) }

/-- Model of `intervalstarttime.dt.tz_convert("US/Pacific").dt.tz_localize(None)`
on a timestamp in minutes UTC: subtract the US/Pacific offset.  The
standard-time offset of 480 minutes is used; daylight-saving variation is
immaterial to every claim (none depends on the converted value). -/
def tzConvertPacificNaive (t : Int) : Int :=
  t - 480

/-- Embedding of `AncillaryServicePriceFetcher.process`: convert the
`intervalstarttime` column to naive Pacific time, drop the listed
columns, rename `intervalstarttime` to `timestamp`, and sort by
`timestamp`. -/
def asPricesProcess (df : Frame) : Except CaisoError Frame := do
  let df ← df.mapCol "intervalstarttime" tzConvertPacificNaive
  let df ← df.dropColumns
    ["intervalendtime", "opr_dt", "opr_hr", "opr_interval", "opr_type",
     "market_run_id", "price_unit"]
  let df := df.renameCol "intervalstarttime" "timestamp"
  df.sortValues "timestamp"

/-- Model of `pd.concat(frames, axis="index")` for frames sharing one
column schema: the first schema with all rows concatenated. -/
def frameConcat (fs : List Frame) : Frame :=
  { cols := ((fs.head?).map Frame.cols).getD [],
    rows := fs.flatMap Frame.rows }

/-! ## Base normalization with an explicit index (`DataFetcher.process`)

`DataFetcher.process` is `drop_duplicates` followed by
`reset_index(drop=True)`.  Both steps are about the pandas row index, so
here a table is a list of (index, row) pairs. -/

/-- Model of a pandas DataFrame as (index label, row) pairs; `ρ` is the
row-content type. -/
def IFrame (ρ : Type) : Type := List (Nat × ρ)

/-- Embedding of `df.drop_duplicates()` (keep="first"): keep the first
occurrence of each row value, retaining original index labels.  `seen`
accumulates row values already kept. -/
def dropDuplicatesAux {ρ : Type} [DecidableEq ρ] (seen : List ρ) :
    IFrame ρ → IFrame ρ
  | [] => []
  | (i, r) :: rest =>
      if r ∈ seen then dropDuplicatesAux seen rest
      else (i, r) :: dropDuplicatesAux (r :: seen) rest

/-- Embedding of `df.drop_duplicates()`. -/
def dropDuplicates {ρ : Type} [DecidableEq ρ] (df : IFrame ρ) : IFrame ρ :=
  dropDuplicatesAux [] df

/-- Embedding of `df.reset_index(drop=True)`: relabel rows with the dense
sequence 0, 1, 2, …. -/
def resetIndex {ρ : Type} (df : IFrame ρ) : IFrame ρ :=
  (List.range df.length).zip (df.map Prod.snd)

/-- Embedding of the base `DataFetcher.process`: `drop_duplicates` then
`reset_index(drop=True)`. -/
def baseProcess {ρ : Type} [DecidableEq ρ] (df : IFrame ρ) : IFrame ρ :=
  resetIndex (dropDuplicates df)

/-- Embedding of `ResourceNodeFetcher.process = lambda _, df: df`: the
identity normalization. -/
def resourceNodeProcess {ρ : Type} (df : IFrame ρ) : IFrame ρ :=
  df

/-! ## Theorems: top/bottom spread -/

/-- Sum of the last `n` elements (top of an ascending list) equals the sum
of the first `n` elements of the reversal. -/
theorem sum_reverse_take (l : List Int) (n : Nat) :
    (l.reverse.take n).sum = (l.drop (l.length - n)).sum := by
  rw [List.take_reverse, List.sum_reverse]

/-- C3 (counterexample): the claim quantifies over every `count` and
`resolution`, but for `count = 1`, `resolution = 120` the derived
`n = 1 * (60 / 120) = 0`, and on the window `[1]` the code returns the
whole-window sum `1` (the slice `arranged[-0:]` is the entire array)
while the claimed top-minus-bottom formula gives `0`. -/
theorem spread_formula_cex :
    TopBottomSpread.call ⟨1, 120⟩ [1] ≠
      specTopBottomSpread (TopBottomSpread.nExtremes ⟨1, 120⟩) [1] := by
  decide

/-- C3 (amended): whenever the derived `n = count * (60 / resolution)` is
at least 1 — in particular for every resolution dividing an hour — the
code's spread equals the sum of the top `n` values minus the sum of the
bottom `n` values of the ascending-sorted window; the `n = 0` case instead
returns the whole-window sum.  The concrete instance of the claim
(`[10, 2, 30, 4, 50, 6]`, `count = 1`, `resolution = 60`, result 48) is
covered by the witness below. -/
theorem spread_eq_top_minus_bottom (t : TopBottomSpread) (w : List Int)
    (h : 1 ≤ t.nExtremes) :
    TopBottomSpread.call t w = specTopBottomSpread t.nExtremes w := by
  unfold TopBottomSpread.call specTopBottomSpread sliceFromNeg sliceTo
  have hne : t.nExtremes ≠ 0 := Nat.one_le_iff_ne_zero.mp h
  simp only [hne, if_false, sum_reverse_take]

/-- C3 (witness): the spec's concrete instance — window
`[10, 2, 30, 4, 50, 6]`, `count = 1`, `resolution = 60` gives `n = 1` and
spread `50 - 2 = 48`. -/
theorem spread_eq_top_minus_bottom_witness :
    1 ≤ TopBottomSpread.nExtremes ⟨1, 60⟩ ∧
      TopBottomSpread.call ⟨1, 60⟩ [10, 2, 30, 4, 50, 6] =
        specTopBottomSpread (TopBottomSpread.nExtremes ⟨1, 60⟩)
          [10, 2, 30, 4, 50, 6] ∧
      TopBottomSpread.call ⟨1, 60⟩ [10, 2, 30, 4, 50, 6] = 48 :=
  ⟨by decide, spread_eq_top_minus_bottom ⟨1, 60⟩ [10, 2, 30, 4, 50, 6] (by decide),
    by decide⟩

/-- C9: on a window with fewer than `n` observations both Python slices
saturate to the whole sorted array, so the spread is `0` rather than an
error; the witness instantiates the spec's example (window of length 1,
`n = 2`). -/
theorem spread_short_window_zero (t : TopBottomSpread) (w : List Int)
    (h : w.length < t.nExtremes) :
    TopBottomSpread.call t w = 0 := by
  unfold TopBottomSpread.call sliceFromNeg sliceTo
  have hlen : (w.insertionSort (· ≤ ·)).length = w.length :=
    List.length_insertionSort _ _
  have hne : t.nExtremes ≠ 0 := by omega
  have hle : (w.insertionSort (· ≤ ·)).length ≤ t.nExtremes := by omega
  simp only [hne, if_false, Nat.sub_eq_zero_of_le hle, List.drop_zero,
    List.take_of_length_le hle, sub_self]

/-- C9 (witness): the spec's example — window of length 1 with `n = 2`
(`count = 2`, `resolution = 60`) yields 0. -/
theorem spread_short_window_zero_witness :
    ([(5 : Int)].length < TopBottomSpread.nExtremes ⟨2, 60⟩) ∧
      TopBottomSpread.call ⟨2, 60⟩ [5] = 0 :=
  ⟨by decide, spread_short_window_zero ⟨2, 60⟩ [5] (by decide)⟩

/-- C10: with `resolution > 60` the floor division `60 // resolution` is 0,
hence `n = 0`, and the spread of any (in particular any non-empty) window
is the sum of all its observations: `arranged[-0:]` is the whole array and
`arranged[:0]` is empty. -/
theorem spread_resolution_gt60_sum (t : TopBottomSpread) (w : List Int)
    (hres : 60 < t.resolution) (hw : w ≠ []) :
    TopBottomSpread.obsPerHour t = 0 ∧ TopBottomSpread.nExtremes t = 0 ∧
      TopBottomSpread.call t w = w.sum := by
  have hobs : TopBottomSpread.obsPerHour t = 0 :=
    Nat.div_eq_of_lt hres
  have hn : TopBottomSpread.nExtremes t = 0 := by
    unfold TopBottomSpread.nExtremes
    rw [hobs, Nat.mul_zero]
  refine ⟨hobs, hn, ?_⟩
  unfold TopBottomSpread.call sliceFromNeg sliceTo
  simp only [hn, if_true, List.take_zero, List.sum_nil, sub_zero, eq_self_iff_true,
    if_pos rfl]
  exact (List.perm_insertionSort (· ≤ ·) w).sum_eq

/-- C10 (witness): `count = 4`, `resolution = 120` on the window
`[3, -1, 7]` returns the total `9`, not `0`. -/
theorem spread_resolution_gt60_sum_witness :
    (60 < TopBottomSpread.resolution ⟨4, 120⟩) ∧
      ([(3 : Int), -1, 7] ≠ []) ∧
      (TopBottomSpread.obsPerHour ⟨4, 120⟩ = 0 ∧
        TopBottomSpread.nExtremes ⟨4, 120⟩ = 0 ∧
        TopBottomSpread.call ⟨4, 120⟩ [3, -1, 7] = [(3 : Int), -1, 7].sum) :=
  ⟨by decide, by decide,
    spread_resolution_gt60_sum ⟨4, 120⟩ [3, -1, 7] (by decide) (by decide)⟩

/-! ## Theorems: cache-backed fetcher -/

/-- C1: when the target artifact exists, `load` returns the deserialized
target content unchanged for every choice of query parameters, performs no
state change and zero `sql_interface` invocations, and a second `load`
returns the identical content again. -/
theorem load_cached_idempotent {τ π : Type} (fet : DataFetcher τ π)
    (s : CacheState τ) (p q : π) (t : τ) (h : s.target = some t) :
    fet.load s p = (.ok t, s, 0) ∧
      fet.load (fet.load s p).2.1 q = (.ok t, s, 0) := by
  have h1 : fet.load s p = (.ok t, s, 0) := by
    unfold DataFetcher.load
    rw [h]
  refine ⟨h1, ?_⟩
  rw [h1]
  unfold DataFetcher.load
  rw [h]

/-- C1 (witness): a concrete fetcher over integer tables with a cached
target returns the cached value twice without fetching. -/
theorem load_cached_idempotent_witness :
    (CacheState.target ⟨some 42, none⟩ = some (42 : Int)) ∧
      ((DataFetcher.load ⟨none, fun x => .ok x, fun _ => 0⟩
          (⟨some 42, none⟩ : CacheState Int) () = (.ok 42, ⟨some 42, none⟩, 0)) ∧
        (DataFetcher.load ⟨none, fun x => .ok x, fun _ => 0⟩
          (DataFetcher.load ⟨none, fun x => .ok x, fun _ => 0⟩
            (⟨some 42, none⟩ : CacheState Int) ()).2.1 () =
              (.ok 42, ⟨some 42, none⟩, 0))) :=
  ⟨rfl, load_cached_idempotent ⟨none, fun x => .ok x, fun _ => 0⟩
    ⟨some 42, none⟩ () () 42 rfl⟩

/-- C8: with no bound `sql_interface`, no target artifact and no usable
source data (the source path is missing or an empty directory), `load`
fails with the configuration error telling the caller to pull the data
manually, leaves the cache state unchanged, and performs zero fetch
invocations (in particular the failure is not retried). -/
theorem load_no_sql_configuration_error {τ π : Type} (fet : DataFetcher τ π)
    (s : CacheState τ) (p : π) (hsql : fet.sqlInterface = none)
    (ht : s.target = none) (hs : s.source = none ∨ s.source = some []) :
    fet.load s p =
      (.error (.configurationError
        "objects have no SQL interface; pull the data manually"), s, 0) := by
  unfold DataFetcher.load DataFetcher.read DataFetcher.fetchBranch
  rw [ht]
  rcases hs with hs | hs <;> rw [hs] <;> simp [hsql]

/-- C8 (witness): a concrete fetcher with no interface and an empty cache
fails with the configuration error. -/
theorem load_no_sql_configuration_error_witness :
    (DataFetcher.sqlInterface (τ := Int) (π := Unit)
        ⟨none, fun x => .ok x, fun _ => 0⟩ = none) ∧
      (CacheState.target (⟨none, none⟩ : CacheState Int) = none) ∧
      (DataFetcher.load ⟨none, fun x => .ok x, fun _ => 0⟩
        (⟨none, none⟩ : CacheState Int) () =
          (.error (.configurationError
            "objects have no SQL interface; pull the data manually"),
            ⟨none, none⟩, 0)) :=
  ⟨rfl, rfl, load_no_sql_configuration_error ⟨none, fun x => .ok x, fun _ => 0⟩
    ⟨none, none⟩ () rfl rfl (Or.inl rfl)⟩

/-- C6: with a bound fetch function, loading from an empty cache returns
the same table and produces the same cache contents as loading once after
manually placing the raw fetch result at the source location (the fetch
path persists the raw result to source and then normalizes through the
same source-exists path), and a second load after the first returns the
same result. -/
theorem fetch_then_cache_equivalence {τ π : Type} (fet : DataFetcher τ π)
    (p : π) (sql : π → τ) (hsql : fet.sqlInterface = some sql) :
    (fet.load ⟨none, none⟩ p).1 = (fet.load ⟨none, some [sql p]⟩ p).1 ∧
      (fet.load ⟨none, none⟩ p).2.1 = (fet.load ⟨none, some [sql p]⟩ p).2.1 ∧
      (fet.load (fet.load ⟨none, none⟩ p).2.1 p).1 = (fet.load ⟨none, none⟩ p).1 := by
  unfold DataFetcher.load DataFetcher.read DataFetcher.fetchBranch
  rcases hproc : fet.processFn (fet.concatFn [sql p]) with e | df <;>
    simp [hsql, hproc]

/-- C6 (witness): a concrete integer-table fetcher whose fetch function
returns `[7, 7]` and whose normalizer is duplicate removal. -/
theorem fetch_then_cache_equivalence_witness :
    (DataFetcher.sqlInterface
        (⟨some (fun _ => [7, 7]), fun l => .ok l.dedup, List.flatten⟩ :
          DataFetcher (List Int) Unit) = some (fun _ => [7, 7])) ∧
      ((DataFetcher.load
          (⟨some (fun _ => [7, 7]), fun l => .ok l.dedup, List.flatten⟩ :
            DataFetcher (List Int) Unit) ⟨none, none⟩ ()).1 =
        (DataFetcher.load ⟨some (fun _ => [7, 7]), fun l => .ok l.dedup,
          List.flatten⟩ ⟨none, some [[7, 7]]⟩ ()).1 ∧
        (DataFetcher.load
          (⟨some (fun _ => [7, 7]), fun l => .ok l.dedup, List.flatten⟩ :
            DataFetcher (List Int) Unit) ⟨none, none⟩ ()).2.1 =
        (DataFetcher.load ⟨some (fun _ => [7, 7]), fun l => .ok l.dedup,
          List.flatten⟩ ⟨none, some [[7, 7]]⟩ ()).2.1 ∧
        (DataFetcher.load
          (⟨some (fun _ => [7, 7]), fun l => .ok l.dedup, List.flatten⟩ :
            DataFetcher (List Int) Unit)
          (DataFetcher.load
            (⟨some (fun _ => [7, 7]), fun l => .ok l.dedup, List.flatten⟩ :
              DataFetcher (List Int) Unit) ⟨none, none⟩ ()).2.1 ()).1 =
        (DataFetcher.load
          (⟨some (fun _ => [7, 7]), fun l => .ok l.dedup, List.flatten⟩ :
            DataFetcher (List Int) Unit) ⟨none, none⟩ ()).1) :=
  ⟨rfl, fetch_then_cache_equivalence
    ⟨some (fun _ => [7, 7]), fun l => .ok l.dedup, List.flatten⟩ ()
    (fun _ => [7, 7]) rfl⟩

/-! ## Theorems: revenue-to-capacity index construction -/

/-- C5 (counterexample): a zero daily capacity does not yield NaN — the
revenue row `5` at `2025-01-01T03:00` (minute 180 of the epoch day) over
capacity table `{2025-01-01: 0}` divides by zero and IEEE division gives
`+inf`, refuting the claim that a zero capacity propagates as NaN. -/
theorem fetch_index_zero_capacity_cex :
    fetchIndexNormalize [(0, PFloat.finite 0)] 180 (PFloat.finite 5) =
        PFloat.inf ∧
      fetchIndexNormalize [(0, PFloat.finite 0)] 180 (PFloat.finite 5) ≠
        PFloat.nan := by
  constructor <;> decide

/-- C5 (amended): in the index construction no error is ever raised (the
normalization is a total function); a missing coarse-capacity entry for
the row's floored day propagates NaN; an existing nonzero finite capacity
`c` divides a finite revenue `r` to give exactly `r / c`; and a zero
capacity follows IEEE semantics — `+inf` for positive revenue, `-inf` for
negative revenue, NaN for zero revenue — rather than NaN across the
board. -/
theorem fetch_index_ratio (cap : List (Nat × PFloat)) (ts : Nat)
    (rev : PFloat) :
    (cap.lookup (floorDay ts) = none →
        fetchIndexNormalize cap ts rev = PFloat.nan) ∧
      (∀ r c : ℚ, rev = PFloat.finite r →
        cap.lookup (floorDay ts) = some (PFloat.finite c) → c ≠ 0 →
        fetchIndexNormalize cap ts rev = PFloat.finite (r / c)) ∧
      (∀ r : ℚ, rev = PFloat.finite r →
        cap.lookup (floorDay ts) = some (PFloat.finite 0) →
        ((0 < r → fetchIndexNormalize cap ts rev = PFloat.inf) ∧
          (r < 0 → fetchIndexNormalize cap ts rev = PFloat.negInf) ∧
          (r = 0 → fetchIndexNormalize cap ts rev = PFloat.nan))) := by
  refine ⟨fun h => ?_, fun r c hr hc hcne => ?_, fun r hr hc => ?_⟩
  · unfold fetchIndexNormalize capLookup
    rw [h]
    cases rev <;> rfl
  · subst hr
    unfold fetchIndexNormalize capLookup
    rw [hc]
    simp [PFloat.div, hcne]
  · subst hr
    unfold fetchIndexNormalize capLookup
    rw [hc]
    refine ⟨fun hpos => ?_, fun hneg => ?_, fun hzero => ?_⟩
    · simp [PFloat.div, ne_of_gt hpos, hpos]
    · simp [PFloat.div, ne_of_lt hneg, not_lt_of_lt hneg]
    · simp [PFloat.div, hzero]

/-- C5 (witness): the spec's concrete instances — revenue 5 at minute 180
of the epoch day with capacity table `{day 0: 100}` gives `5 / 100`, and
with an empty capacity table gives NaN. -/
theorem fetch_index_ratio_witness :
    (List.lookup (floorDay 180) ([] : List (Nat × PFloat)) = none ∧
      fetchIndexNormalize [] 180 (PFloat.finite 5) = PFloat.nan) ∧
      (PFloat.finite 5 = PFloat.finite 5 ∧
        List.lookup (floorDay 180) [(0, PFloat.finite 100)] =
          some (PFloat.finite 100) ∧
        fetchIndexNormalize [(0, PFloat.finite 100)] 180 (PFloat.finite 5) =
          PFloat.finite (5 / 100)) :=
  ⟨⟨rfl, (fetch_index_ratio [] 180 (PFloat.finite 5)).1 rfl⟩,
    ⟨rfl, rfl, (fetch_index_ratio [(0, PFloat.finite 100)] 180
      (PFloat.finite 5)).2.1 5 100 rfl rfl (by norm_num)⟩⟩

/-! ## Theorems: per-dataset normalization (duplicates and index) -/

/-- Rows surviving `drop_duplicates` are pairwise distinct and avoid the
`seen` accumulator. -/
theorem dropDuplicatesAux_snd_nodup {ρ : Type} [DecidableEq ρ] :
    ∀ (l : IFrame ρ) (seen : List ρ),
      ((dropDuplicatesAux seen l).map Prod.snd).Nodup ∧
        ∀ r ∈ (dropDuplicatesAux seen l).map Prod.snd, r ∉ seen
  | [], _ => ⟨List.nodup_nil, by simp [dropDuplicatesAux]⟩
  | (i, r) :: rest, seen => by
      unfold dropDuplicatesAux
      by_cases hmem : r ∈ seen
      · simpa [hmem] using dropDuplicatesAux_snd_nodup rest seen
      · obtain ⟨hnodup, havoid⟩ := dropDuplicatesAux_snd_nodup rest (r :: seen)
        simp only [hmem, if_false, List.map_cons, List.nodup_cons]
        refine ⟨⟨fun hr => ?_, hnodup⟩, fun x hx => ?_⟩
        · exact havoid r hr (List.mem_cons_self r seen)
        · rcases List.mem_cons.mp hx with hx | hx
          · exact hx ▸ hmem
          · exact fun hxseen => havoid x hx (List.mem_cons_of_mem r hxseen)

/-- C4 (amended): the base `DataFetcher.process` normalization —
`drop_duplicates` then `reset_index(drop=True)` — produces a table with no
exact-duplicate rows and a dense 0-based index.  Dataset subclasses that
override `process` do not all guarantee this; see the counterexample. -/
theorem baseProcess_nodup_dense_index {ρ : Type} [DecidableEq ρ]
    (df : IFrame ρ) :
    ((baseProcess df).map Prod.snd).Nodup ∧
      (baseProcess df).map Prod.fst = List.range (baseProcess df).length := by
  have hlen : (List.range (dropDuplicates df).length).length =
      ((dropDuplicates df).map Prod.snd).length := by
    simp
  constructor
  · have hsnd : (baseProcess df).map Prod.snd =
        (dropDuplicates df).map Prod.snd := by
      unfold baseProcess resetIndex
      exact List.map_snd_zip _ _ (le_of_eq hlen.symm)
    rw [hsnd]
    exact (dropDuplicatesAux_snd_nodup df []).1
  · have hfst : (baseProcess df).map Prod.fst =
        List.range (dropDuplicates df).length := by
      unfold baseProcess resetIndex
      exact List.map_fst_zip _ _ (le_of_eq hlen)
    have hlen2 : (baseProcess df).length = (dropDuplicates df).length := by
      unfold baseProcess resetIndex
      rw [List.length_zip]
      simp
    rw [hfst, hlen2]

/-- C4 (counterexample): `ResourceNodeFetcher.process` is the identity
(`process = lambda _, df: df`), so on a raw table whose two rows are exact
duplicates the normalized table still contains a duplicate row — the claim
does not hold for every dataset. -/
theorem resource_node_process_keeps_duplicates :
    ¬ (((resourceNodeProcess ([(0, 7), (1, 7)] : IFrame ℕ)).map
          Prod.snd).Nodup ∧
        (resourceNodeProcess ([(0, 7), (1, 7)] : IFrame ℕ)).map Prod.fst =
          List.range (resourceNodeProcess ([(0, 7), (1, 7)] : IFrame ℕ)).length) := by
  intro h
  exact absurd h.1 (by decide)

/-! ## Theorems: schema failure during normalization -/

/-- Column lookup on a frame without the label fails. -/
theorem Frame.colIdx_eq_none (f : Frame) (c : String) (h : c ∉ f.cols) :
    f.colIdx c = none := by
  unfold Frame.colIdx
  simp [List.findIdx?_eq_none_iff]
  exact fun x hx he => h (he ▸ hx)

/-- The ancillary-services normalizer fails with the schema error naming
`intervalstarttime` as soon as the raw table lacks that column. -/
theorem asPricesProcess_missing_timestamp (raw : Frame)
    (h : "intervalstarttime" ∉ raw.cols) :
    asPricesProcess raw = .error (.schemaError "intervalstarttime") := by
  unfold asPricesProcess Frame.mapCol
  rw [Frame.colIdx_eq_none raw _ h]
  rfl

/-- Concatenating a single frame is that frame. -/
theorem frameConcat_singleton (f : Frame) : frameConcat [f] = f := by
  cases f
  simp [frameConcat]

/-- C7: a load call whose raw source table lacks the required
`intervalstarttime` column fails with the schema error naming that
column, and the target artifact is not written — the final cache state
still has no target. -/
theorem load_schema_error_no_partial_write {π : Type}
    (sq : Option (π → Frame)) (p : π) (raw : Frame)
    (hcol : "intervalstarttime" ∉ raw.cols) :
    DataFetcher.load ⟨sq, asPricesProcess, frameConcat⟩
        ⟨none, some [raw]⟩ p =
      (.error (.schemaError "intervalstarttime"), ⟨none, some [raw]⟩, 0) ∧
      (DataFetcher.load ⟨sq, asPricesProcess, frameConcat⟩
        ⟨none, some [raw]⟩ p).2.1.target = none := by
  have h1 : DataFetcher.load ⟨sq, asPricesProcess, frameConcat⟩
      ⟨none, some [raw]⟩ p =
        (.error (.schemaError "intervalstarttime"), ⟨none, some [raw]⟩, 0) := by
    unfold DataFetcher.load DataFetcher.read
    simp only [frameConcat_singleton, List.isEmpty_cons, Bool.false_eq_true,
      if_false, asPricesProcess_missing_timestamp raw hcol]
  exact ⟨h1, by rw [h1]⟩

/-- C7 (witness): a concrete raw table with only a `price` column fails
with the schema error and leaves the target absent. -/
theorem load_schema_error_no_partial_write_witness :
    ("intervalstarttime" ∉ (Frame.mk ["price"] [[3]]).cols) ∧
      (DataFetcher.load (π := Unit) ⟨none, asPricesProcess, frameConcat⟩
          ⟨none, some [Frame.mk ["price"] [[3]]]⟩ () =
        (.error (.schemaError "intervalstarttime"),
          ⟨none, some [Frame.mk ["price"] [[3]]]⟩, 0) ∧
        (DataFetcher.load (π := Unit) ⟨none, asPricesProcess, frameConcat⟩
          ⟨none, some [Frame.mk ["price"] [[3]]]⟩ ()).2.1.target = none) :=
  ⟨by decide, load_schema_error_no_partial_write none () (Frame.mk ["price"] [[3]])
    (by decide)⟩

/-! ## Theorems: daily longest negative run -/

/-- Unfolding equation for `diffList` on two leading elements. -/
theorem diffList_cons2 (x y : Int) (l : List Int) :
    diffList (x :: y :: l) = (y - x) :: diffList (y :: l) := rfl

/-- Unfolding equation for `idxWhere` on a leading element. -/
theorem idxWhere_cons (p : Int → Bool) (x : Int) (l : List Int) (i : Nat) :
    idxWhere p (x :: l) i =
      if p x then i :: idxWhere p l (i + 1) else idxWhere p l (i + 1) := rfl

/-- Shifting the index accumulator of `idxWhere` shifts every reported
index by one. -/
theorem idxWhere_succ (p : Int → Bool) :
    ∀ (l : List Int) (i : Nat),
      idxWhere p l (i + 1) = (idxWhere p l i).map (· + 1)
  | [], _ => rfl
  | x :: l, i => by
      by_cases hx : p x <;>
        simp [idxWhere_cons, hx, idxWhere_succ p l (i + 1)]

/-- Paired subtraction of edge indices is invariant under shifting both
index lists. -/
theorem zipWith_sub_map_succ :
    ∀ (E S : List Nat),
      List.zipWith (fun (e s : Nat) => (e : Int) - (s : Int))
        (E.map (· + 1)) (S.map (· + 1)) =
      List.zipWith (fun (e s : Nat) => (e : Int) - (s : Int)) E S
  | [], _ => by simp
  | _ :: _, [] => by simp
  | e :: E, s :: S => by
      simp only [List.map_cons, List.zipWith_cons_cons,
        zipWith_sub_map_succ E S]
      congr 1
      push_cast
      ring

/-- Paired subtraction with an open run: shifting the end indices while
the first run stays anchored at index 0 adds one to the first run length
only. -/
theorem zipWith_sub_open_run (E S : List Nat) :
    List.zipWith (fun (e s : Nat) => (e : Int) - (s : Int))
      (E.map (· + 1)) (0 :: S.map (· + 1)) =
    mapHead (· + 1)
      (List.zipWith (fun (e s : Nat) => (e : Int) - (s : Int)) E (0 :: S)) := by
  cases E with
  | nil => rfl
  | cons e E =>
      simp only [List.map_cons, List.zipWith_cons_cons,
        zipWith_sub_map_succ, mapHead]
      congr 1

/-- `mapHead` commutes with casting every entry to `Int`. -/
theorem mapHead_cast (L : List Nat) :
    mapHead (· + 1) (L.map (fun (n : Nat) => (n : Int))) =
      (mapHead (· + 1) L).map (fun (n : Nat) => (n : Int)) := by
  cases L with
  | nil => rfl
  | cons x L => simp [mapHead]

/-- Growing an already-open run by one adds one to the first reported run
length (the accumulator must be positive for the head to be the open
run). -/
theorem runLengthsAux_succ_succ :
    ∀ (l : List Bool) (c : Nat),
      runLengthsAux l (c + 2) = mapHead (· + 1) (runLengthsAux l (c + 1))
  | [], _ => rfl
  | true :: l, c => runLengthsAux_succ_succ l (c + 1)
  | false :: _, _ => rfl

/-- Folding `max` over cast naturals equals casting the natural fold. -/
theorem foldl_max_cast :
    ∀ (L : List Nat) (a : Nat),
      (L.map (fun (n : Nat) => (n : Int))).foldl max ((a : Nat) : Int) =
        ((L.foldl max a : Nat) : Int)
  | [], _ => rfl
  | x :: L, a => by
      rw [List.map_cons, List.foldl_cons, List.foldl_cons, ← Nat.cast_max]
      exact foldl_max_cast L (max a x)

/-- Boolean equality facts used when evaluating the edge predicates. -/
theorem beq_zero_one : (((0 : Int) == 1)) = false := rfl

/-- Boolean equality facts used when evaluating the edge predicates. -/
theorem beq_zero_negone : (((0 : Int) == -1)) = false := rfl

/-- Boolean equality facts used when evaluating the edge predicates. -/
theorem beq_one_one : (((1 : Int) == 1)) = true := rfl

/-- Boolean equality facts used when evaluating the edge predicates. -/
theorem beq_one_negone : (((1 : Int) == -1)) = false := rfl

/-- Boolean equality facts used when evaluating the edge predicates. -/
theorem beq_negone_one : (((-1 : Int) == 1)) = false := rfl

/-- Boolean equality facts used when evaluating the edge predicates. -/
theorem beq_negone_negone : (((-1 : Int) == -1)) = true := rfl

/-- The bit of `false` is 0. -/
theorem bitOf_false : bitOf false = 0 := rfl

/-- The bit of `true` is 1. -/
theorem bitOf_true : bitOf true = 1 := rfl

/-- A 0 entry is not a rising edge. -/
theorem idxWhere_start_zero (l : List Int) (i : Nat) :
    idxWhere (fun d => d == 1) ((0 : Int) :: l) i =
      idxWhere (fun d => d == 1) l (i + 1) := rfl

/-- A 0 entry is not a falling edge. -/
theorem idxWhere_end_zero (l : List Int) (i : Nat) :
    idxWhere (fun d => d == -1) ((0 : Int) :: l) i =
      idxWhere (fun d => d == -1) l (i + 1) := rfl

/-- A 1 entry is a rising edge. -/
theorem idxWhere_start_one (l : List Int) (i : Nat) :
    idxWhere (fun d => d == 1) ((1 : Int) :: l) i =
      i :: idxWhere (fun d => d == 1) l (i + 1) := rfl

/-- A 1 entry is not a falling edge. -/
theorem idxWhere_end_one (l : List Int) (i : Nat) :
    idxWhere (fun d => d == -1) ((1 : Int) :: l) i =
      idxWhere (fun d => d == -1) l (i + 1) := rfl

/-- A -1 entry is not a rising edge. -/
theorem idxWhere_start_negone (l : List Int) (i : Nat) :
    idxWhere (fun d => d == 1) ((-1 : Int) :: l) i =
      idxWhere (fun d => d == 1) l (i + 1) := rfl

/-- A -1 entry is a falling edge. -/
theorem idxWhere_end_negone (l : List Int) (i : Nat) :
    idxWhere (fun d => d == -1) ((-1 : Int) :: l) i =
      i :: idxWhere (fun d => d == -1) l (i + 1) := rfl

/-- The rising/falling edge scan of a 0/1 mask computes exactly the list
of maximal-run lengths of the underlying boolean list (as integers, in
order). -/
theorem edgePairs_mask :
    ∀ (bl : List Bool),
      edgePairs (bl.map bitOf) =
        (runLengths bl).map (fun (n : Nat) => (n : Int))
  | [] => rfl
  | false :: bl => by
      have ih := edgePairs_mask bl
      unfold edgePairs at ih ⊢
      simp only [List.map_cons, bitOf_false, List.cons_append, diffList_cons2,
        sub_self, sub_zero]
      rw [idxWhere_end_zero, idxWhere_start_zero, idxWhere_succ, idxWhere_succ,
        zipWith_sub_map_succ, ih]
      simp [runLengths, runLengthsAux]
  | [true] => by decide
  | true :: false :: bl => by
      have ih := edgePairs_mask bl
      unfold edgePairs at ih ⊢
      simp only [List.map_cons, bitOf_true, bitOf_false, List.cons_append,
        diffList_cons2, sub_zero, zero_sub]
      rw [idxWhere_end_one, idxWhere_end_negone, idxWhere_start_one,
        idxWhere_start_negone]
      simp only [idxWhere_succ]
      simp only [List.zipWith_cons_cons, zipWith_sub_map_succ]
      rw [ih]
      simp [runLengths, runLengthsAux]
  | true :: true :: bl => by
      have ih := edgePairs_mask (true :: bl)
      unfold edgePairs at ih ⊢
      simp only [List.map_cons, bitOf_true, List.cons_append, diffList_cons2,
        sub_zero, sub_self] at ih ⊢
      rw [idxWhere_end_one, idxWhere_start_one] at ih
      rw [idxWhere_end_one, idxWhere_start_one, idxWhere_end_zero,
        idxWhere_start_zero]
      simp only [idxWhere_succ] at ih ⊢
      rw [zipWith_sub_open_run, ih, mapHead_cast]
      have h2 := runLengthsAux_succ_succ bl 0
      norm_num at h2
      simp [runLengths, runLengthsAux, h2]
termination_by bl => bl.length

/-- `dailyNegDuration` is the max-fold of the paired edge list. -/
theorem dailyNegDuration_eq (arr : List Int) :
    dailyNegDuration arr = (edgePairs arr).foldl max 0 := rfl

/-- The 0/1 mask is the bit encoding of the negativity mask. -/
theorem maskOf_eq (samples : List PFloat) :
    maskOf samples = (samples.map PFloat.isNeg).map bitOf := by
  simp [maskOf, bitOf, List.map_map, Function.comp]

/-- A boolean list with no `true` entry has no maximal run. -/
theorem runLengthsAux_all_false :
    ∀ (l : List Bool), (∀ b ∈ l, b = false) → runLengthsAux l 0 = []
  | [], _ => rfl
  | b :: l, h => by
      have hb : b = false := h b (List.mem_cons_self b l)
      subst hb
      exact runLengthsAux_all_false l
        (fun x hx => h x (List.mem_cons_of_mem _ hx))

/-- C2: the per-day value of `negative_duration` equals the maximum length
of a maximal run of consecutive samples strictly below zero (NaN counting
as non-negative); on the spec's single-day series
`[-4, -1, 3, -6, -2, -5]` it is 3 (the run at indices 3, 4, 5, not the
length-2 prefix run); and it is 0 whenever no sample is negative. -/
theorem negative_duration_day_correct :
    (∀ samples : List PFloat,
        negativeDurationDay samples =
          ((longestRun (samples.map PFloat.isNeg) : Nat) : Int)) ∧
      negativeDurationDay
        [.finite (-4), .finite (-1), .finite 3, .finite (-6), .finite (-2),
          .finite (-5)] = 3 ∧
      (∀ samples : List PFloat,
        (∀ v ∈ samples, PFloat.isNeg v = false) →
          negativeDurationDay samples = 0) := by
  have hmain : ∀ samples : List PFloat,
      negativeDurationDay samples =
        ((longestRun (samples.map PFloat.isNeg) : Nat) : Int) := by
    intro samples
    rw [negativeDurationDay, dailyNegDuration_eq, maskOf_eq,
      edgePairs_mask (samples.map PFloat.isNeg)]
    have hfold := foldl_max_cast (runLengths (samples.map PFloat.isNeg)) 0
    norm_num at hfold
    rw [hfold]
    rfl
  refine ⟨hmain, by decide, fun samples h => ?_⟩
  rw [hmain]
  have hall : ∀ b ∈ samples.map PFloat.isNeg, b = false := by
    intro b hb
    rcases List.mem_map.mp hb with ⟨v, hv, rfl⟩
    exact h v hv
  rw [longestRun, runLengths, runLengthsAux_all_false _ hall]
  rfl

/-- C2 (witness): a day with a positive sample and a NaN sample has no
negative sample, and its longest negative run is 0. -/
theorem negative_duration_day_correct_witness :
    (∀ v ∈ [PFloat.finite 2, PFloat.nan], PFloat.isNeg v = false) ∧
      negativeDurationDay [PFloat.finite 2, PFloat.nan] = 0 :=
  ⟨by decide, negative_duration_day_correct.2.2
    [PFloat.finite 2, PFloat.nan] (by decide)⟩

end CaisoOps
